import Mathlib

/-!
Verification of the data-preparation pipeline of the earthquake-predictability
training scripts (`train_p4581.py`, `train_sptmp_cascadia.py`): windowing,
train/validation/test splitting, normalisation, causal smoothing, the
statistical-comparator gate, and model selection.

The two driver scripts import the preprocessing functions
(`moving_average_causal_filter`, `compare_feature_statistics`, `create_dataset`,
`split_train_test_forecast_windows`, `normalise_dataset`) from
`utils.data_preprocessing`, a module that is not among the sources; those
functions are therefore modelled from the specification, as marked in each doc
comment.  The control flow of the two scripts themselves (pipeline stage order,
the gate's abort behaviour, model selection by configuration string) is
embedded directly from the script sources.

Series samples are modelled as exact rationals.
-/

namespace EqPred

/-- Modelled from the spec: `create_dataset` (implemented in
`utils.data_preprocessing`, which is not among the sources).  Given a series and
integers `lookback`, `forecast`, it produces two aligned ordered sequences of
windows, `X[i]` = samples `[i, i+lookback)` and `y[i]` = samples
`[i+lookback, i+lookback+forecast)` for `0 ≤ i ≤ N - lookback - forecast`,
and rejects series with `N < lookback + forecast`. -/
def create_dataset {α : Type} (S : List α) (lookback forecast : ℕ) :
    Option (List (List α) × List (List α)) :=
  if S.length < lookback + forecast then none
  else
    some
      ((List.range (S.length - lookback - forecast + 1)).map
          (fun i => (S.drop i).take lookback),
       (List.range (S.length - lookback - forecast + 1)).map
          (fun i => (S.drop (i + lookback)).take forecast))

/-- Modelled from the spec: `split_train_test_forecast_windows` (implemented in
`utils.data_preprocessing`, which is not among the sources).  Given the full
ordered window sequence, it partitions by index from the end: the last `n_test`
windows become the test partition, the `n_val` windows immediately preceding
them (0 when not requested) become validation, and all remaining earlier
windows become train; it fails when `n_test + n_val` exceeds the total window
count.  The `forecast` argument is part of the call signature in the scripts
but does not enter the partition boundaries the spec describes. -/
def split_train_test_forecast_windows {α : Type} (ws : List α)
    (forecast n_test n_val : ℕ) : Option (List α × List α × List α) :=
  if ws.length < n_test + n_val then none
  else
    some (ws.take (ws.length - n_test - n_val),
          (ws.drop (ws.length - n_test - n_val)).take n_val,
          ws.drop (ws.length - n_test))

/-- Mean of a list of rationals (`0` for the empty list). -/
def meanQ (xs : List ℚ) : ℚ :=
  xs.sum / xs.length

/-- Population variance of a list of rationals. -/
def varQ (xs : List ℚ) : ℚ :=
  (xs.map (fun v => (v - meanQ xs) ^ 2)).sum / xs.length

/-- Floor square root of a natural number, written so that it evaluates by
structural computation: the number of square roots not exceeding `n` among
`0, …, n`, minus one. -/
def natSqrt (n : ℕ) : ℕ :=
  ((List.range (n + 1)).filter (fun m => decide (m * m ≤ n))).length - 1

/-- Computable rational stand-in for the standard deviation: the floor square
root of the variance's numerator over the floor square root of its
denominator.  It is exact on perfect-square variances and, decisively for
every property claimed here, it is zero exactly when a (nonnegative) variance
is zero. -/
def sqrtQ (q : ℚ) : ℚ :=
  (natSqrt q.num.toNat : ℚ) / (natSqrt q.den : ℚ)

/-- The values of channel `c` across all samples of a tensor (a tensor being a
list of samples, each sample a list of per-channel values). -/
def channelValues (data : List (List ℚ)) (c : ℕ) : List ℚ :=
  data.map (fun s => s.getD c 0)

/-- Modelled from the spec: the fitting half of `normalise_dataset`
(implemented in `utils.data_preprocessing`, which is not among the sources).
Per channel of the given training tensor, location/scale statistics — z-score
mean and standard deviation — are computed over all training samples jointly. -/
def fit_scaler (data : List (List ℚ)) : List (ℚ × ℚ) :=
  (List.range (data.headD []).length).map
    (fun c => (meanQ (channelValues data c), sqrtQ (varQ (channelValues data c))))

/-- Apply the fitted per-channel affine transform `v ↦ (v - mean) / scale` to
one sample; channels beyond the fitted ones are left unchanged. -/
def transformSample : List (ℚ × ℚ) → List ℚ → List ℚ
  | _, [] => []
  | [], v :: vs => v :: transformSample [] vs
  | p :: ps, v :: vs => (v - p.1) / p.2 :: transformSample ps vs

/-- Apply the inverse per-channel affine transform `v ↦ v * scale + mean` to
one sample; channels beyond the fitted ones are left unchanged. -/
def inverseSample : List (ℚ × ℚ) → List ℚ → List ℚ
  | _, [] => []
  | [], v :: vs => v :: inverseSample [] vs
  | p :: ps, v :: vs => (v * p.2 + p.1) :: inverseSample ps vs

/-- The fitted transform applied to a whole tensor. -/
def transform (sc : List (ℚ × ℚ)) (data : List (List ℚ)) : List (List ℚ) :=
  data.map (transformSample sc)

/-- The fitted inverse transform applied to a whole tensor, mapping model
output back to physical units. -/
def inverse_transform (sc : List (ℚ × ℚ)) (data : List (List ℚ)) : List (List ℚ) :=
  data.map (inverseSample sc)

/-- A scaler is nondegenerate when no fitted channel scale is zero. -/
def scaler_nondegenerate (sc : List (ℚ × ℚ)) : Bool :=
  sc.all (fun p => decide (p.2 ≠ 0))

/-- The bundle of normalised tensors `normalise_dataset` returns (the
`data_dict` of the scripts); validation fields are empty when no validation
partition is supplied. -/
structure NormalisedData where
  X_train_sc : List (List ℚ)
  y_train_sc : List (List ℚ)
  X_test_sc : List (List ℚ)
  y_test_sc : List (List ℚ)
  X_val_sc : List (List ℚ)
  y_val_sc : List (List ℚ)
  deriving DecidableEq

/-- Modelled from the spec: `normalise_dataset` (implemented in
`utils.data_preprocessing`, which is not among the sources).  It fits one
scaler on train-X and a separate one on train-y, fails — rather than divide by
zero — when some fitted channel scale is zero, and otherwise applies the
fitted transforms to every supplied partition, returning the normalised
tensors together with the two fitted scalers. -/
def normalise_dataset (X_train y_train X_test y_test : List (List ℚ))
    (val : Option (List (List ℚ) × List (List ℚ))) :
    Option (NormalisedData × List (ℚ × ℚ) × List (ℚ × ℚ)) :=
  let scaler_X := fit_scaler X_train
  let scaler_y := fit_scaler y_train
  if scaler_nondegenerate scaler_X && scaler_nondegenerate scaler_y then
    some
      ({ X_train_sc := transform scaler_X X_train
         y_train_sc := transform scaler_y y_train
         X_test_sc := transform scaler_X X_test
         y_test_sc := transform scaler_y y_test
         X_val_sc := transform scaler_X ((val.map Prod.fst).getD [])
         y_val_sc := transform scaler_y ((val.map Prod.snd).getD []) },
       scaler_X, scaler_y)
  else none

/-- The parts of a `normalise_dataset` result that claim C5 says are functions
of the training partition alone: the two fitted scalers and the normalised
training tensors. -/
def train_view (r : NormalisedData × List (ℚ × ℚ) × List (ℚ × ℚ)) :
    List (List ℚ) × List (List ℚ) × List (ℚ × ℚ) × List (ℚ × ℚ) :=
  (r.1.X_train_sc, r.1.y_train_sc, r.2.1, r.2.2)

/-- Modelled from the spec: `moving_average_causal_filter` (implemented in
`utils.data_preprocessing`, which is not among the sources).  Each smoothed
sample at raw index `j + w - 1` is the mean of the `w` most recent raw samples
`[j, j + w)` — causal: only past and current samples enter.  The first `w - 1`
raw positions, which have fewer than `w` inputs, are dropped, and every `d`-th
of the remaining smoothed samples is kept, matching the spec's end-to-end
scenario (1000 samples, `w = 100`, `d = 10` give 91 output samples). -/
def moving_average_causal_filter (S : List ℚ) (w d : ℕ) : List ℚ :=
  if w ≤ S.length ∧ 0 < d then
    (List.range' 0 ((S.length - w) / d + 1) d).map
      (fun j => meanQ ((S.drop j).take w))
  else []

/-- Input window of `create_dataset` at start index `i` on the identity series
`List.range N`: raw samples `[i, i+L)`, whose values equal their raw indices. -/
def xwin (N L i : ℕ) : List ℕ :=
  ((List.range N).drop i).take L

/-- Output window of `create_dataset` at start index `i` on the identity series
`List.range N`: raw samples `[i+L, i+L+F)`. -/
def ywin (N L F i : ℕ) : List ℕ :=
  ((List.range N).drop (i + L)).take F

/-- The window pair at start index `i` on the identity series. -/
def wpair (N L F i : ℕ) : List ℕ × List ℕ :=
  (xwin N L i, ywin N L F i)

/-- The raw samples underlying a window pair: the input window together with the
output window. -/
def pairRaw (p : List ℕ × List ℕ) : List ℕ :=
  p.1 ++ p.2

/-- Windowing followed by splitting, run on the identity series `List.range N`
so that each sample value equals its raw index: the split partitions then hold
exactly the raw indices their windows use. -/
def pipeline_partitions (N L F n_test n_val : ℕ) :
    Option (List (List ℕ × List ℕ) × List (List ℕ × List ℕ)
      × List (List ℕ × List ℕ)) :=
  (create_dataset (List.range N) L F).bind
    (fun Xy => split_train_test_forecast_windows (Xy.1.zip Xy.2) F n_test n_val)

/-- The property claim C3 asserts of a split: no raw sample of a train window
occurs in a validation or test window, and no raw sample of a validation
window occurs in a test window; vacuously true when the pipeline fails. -/
def no_raw_leakage (N L F n_test n_val : ℕ) : Bool :=
  match pipeline_partitions N L F n_test n_val with
  | none => true
  | some (tr, va, te) =>
      (tr.all fun p => (va ++ te).all fun q =>
        (pairRaw p).all fun r => !((pairRaw q).contains r))
      && (va.all fun p => te.all fun q =>
        (pairRaw p).all fun r => !((pairRaw q).contains r))

/-- Pipeline stages appearing in the two training scripts. -/
inductive Stage
  | loadData
  | smooth
  | plotOrigVsProcessed
  | statGate
  | window
  | split
  | normalise
  | plotExample
  | modelConstruct
  | trainLoop
  | evalTest
  | recordResults
  | plotResults
  deriving DecidableEq

/-- Stage order of `train_p4581.py` (lines 125-320), transcribed from the script:
load the dataset, smooth it, plot original vs processed, consult the
statistical gate, window, split, normalise, plot an example window, construct
the model, train, record, plot. -/
def p4581_pipeline : List Stage :=
  [.loadData, .smooth, .plotOrigVsProcessed, .statGate, .window, .split,
   .normalise, .plotExample, .modelConstruct, .trainLoop, .recordResults,
   .plotResults]

/-- Stage order of `train_sptmp_cascadia.py` (lines 113-249), transcribed from the
script: load the dataset, smooth it, window, split, normalise, construct the
model, train, evaluate on the test set, record, plot.  The script never calls
`compare_feature_statistics`. -/
def cascadia_pipeline : List Stage :=
  [.loadData, .smooth, .window, .split, .normalise, .modelConstruct, .trainLoop,
   .evalTest, .recordResults, .plotResults]

/-- Outcome of the run at a control point. -/
inductive RunOutcome
  | proceeds
  | abortedCleanly
  deriving DecidableEq

/-- Control flow at the statistical gate of `train_p4581.py` (lines 153-159): when
`compare_feature_statistics` returns false, the script prints a message and
calls `exit()` — a clean scripted abort, not a crash; otherwise execution
proceeds to windowing. -/
def p4581_gate_outcome (verdict : Bool) : RunOutcome :=
  if verdict then .proceeds else .abortedCleanly

/-- The property claim C9 asserts of a pipeline: the statistical gate is consulted,
after smoothing and before windowing. -/
def gate_between_smooth_and_window (p : List Stage) : Prop :=
  Stage.statGate ∈ p ∧ p.indexOf .smooth < p.indexOf .statGate
    ∧ p.indexOf .statGate < p.indexOf .window

/-- The model objects the scripts can construct. -/
inductive ModelKind
  | lstm
  | tcn
  | conv2dlstm
  deriving DecidableEq

/-- Model selection in `train_p4581.py` (lines 203-219): an `if`/`elif` chain on
the configuration string `args.model` with no `else` branch, so for an
unrecognized string no model object is bound to the name `model`. -/
def p4581_select_model (model : String) : Option ModelKind :=
  if model = "LSTM" then some .lstm
  else if model = "TCN" then some .tcn
  else none

/-- Model selection in `train_sptmp_cascadia.py` (lines 152-159): a single `if`
with no `else` branch. -/
def cascadia_select_model (model : String) : Option ModelKind :=
  if model = "Conv2DLSTM" then some .conv2dlstm else none

/-- What happens at the `train_model(model, ...)` call site. -/
inductive TrainCallOutcome
  | invoked (m : ModelKind)
  | unboundNameError (var : String)
  | descriptiveValidationError (msg : String)
  deriving DecidableEq

/-- The `train_model(model, ...)` call of `train_p4581.py` (line 222): when no
branch of the selection chain bound the name `model`, evaluating the argument
raises Python's unbound-name error (`NameError`) before `train_model` runs;
otherwise training is invoked on the selected model. -/
def p4581_train_call (model : String) : TrainCallOutcome :=
  match p4581_select_model model with
  | some m => .invoked m
  | none => .unboundNameError "model"

/-- The `train_model(model, ...)` call of `train_sptmp_cascadia.py` (line 162),
analogous to the p4581 one. -/
def cascadia_train_call (model : String) : TrainCallOutcome :=
  match cascadia_select_model model with
  | some m => .invoked m
  | none => .unboundNameError "model"

end EqPred

namespace EqPred

/-- C1: for every series `S` with `N = |S| ≥ L + F`, `create_dataset` succeeds and
produces exactly `N - L - F + 1` window pairs; the `i`-th input window has length
`L` and holds raw samples `i, …, i+L-1`, and the `i`-th output window has length
`F` and holds raw samples `i+L, …, i+L+F-1`.  Hence windows are emitted in
strictly increasing time order (window `i` starts at raw index `i`) and `y[i]`
begins exactly where `X[i]` ends: no gap and no overlap. -/
theorem claim1_create_dataset_windows {α : Type} (d : α) (S : List α) (L F : ℕ)
    (h : L + F ≤ S.length) :
    ∃ X y, create_dataset S L F = some (X, y)
      ∧ X.length = S.length - L - F + 1
      ∧ y.length = S.length - L - F + 1
      ∧ (∀ i, i < S.length - L - F + 1 →
          (X.getD i []).length = L ∧ (y.getD i []).length = F
          ∧ (∀ j, j < L → (X.getD i []).getD j d = S.getD (i + j) d)
          ∧ (∀ j, j < F → (y.getD i []).getD j d = S.getD (i + L + j) d)) := by
  refine ⟨(List.range (S.length - L - F + 1)).map (fun i => (S.drop i).take L),
          (List.range (S.length - L - F + 1)).map (fun i => (S.drop (i + L)).take F),
          ?_, ?_, ?_, ?_⟩
  · rw [create_dataset, if_neg (by omega)]
  · simp
  · simp
  · intro i hi
    have hiN : i + L + F ≤ S.length := by omega
    have hXlen : ((S.drop i).take L).length = L := by
      simp [List.length_take, List.length_drop]
      omega
    have hylen : ((S.drop (i + L)).take F).length = F := by
      simp [List.length_take, List.length_drop]
      omega
    have hXi :
        ((List.range (S.length - L - F + 1)).map
            (fun i => (S.drop i).take L)).getD i [] = (S.drop i).take L := by
      rw [List.getD_eq_getElem _ _ (by simpa using hi)]
      simp
    have hyi :
        ((List.range (S.length - L - F + 1)).map
            (fun i => (S.drop (i + L)).take F)).getD i [] = (S.drop (i + L)).take F := by
      rw [List.getD_eq_getElem _ _ (by simpa using hi)]
      simp
    rw [hXi, hyi]
    refine ⟨hXlen, hylen, ?_, ?_⟩
    · intro j hj
      have hj' : j < ((S.drop i).take L).length := by omega
      rw [List.getD_eq_getElem _ _ hj', List.getD_eq_getElem _ _ (by omega)]
      rw [List.getElem_take, List.getElem_drop]
    · intro j hj
      have hj' : j < ((S.drop (i + L)).take F).length := by omega
      rw [List.getD_eq_getElem _ _ hj', List.getD_eq_getElem _ _ (by omega)]
      rw [List.getElem_take, List.getElem_drop]

/-- Witness for C1 at the concrete series `[10, 11, 12, 13, 14]` with
lookback 2 and forecast 1. -/
theorem claim1_witness :
    2 + 1 ≤ ([10, 11, 12, 13, 14] : List ℚ).length ∧
    (∃ X y, create_dataset ([10, 11, 12, 13, 14] : List ℚ) 2 1 = some (X, y)
      ∧ X.length = ([10, 11, 12, 13, 14] : List ℚ).length - 2 - 1 + 1
      ∧ y.length = ([10, 11, 12, 13, 14] : List ℚ).length - 2 - 1 + 1
      ∧ (∀ i, i < ([10, 11, 12, 13, 14] : List ℚ).length - 2 - 1 + 1 →
          (X.getD i []).length = 2 ∧ (y.getD i []).length = 1
          ∧ (∀ j, j < 2 →
              (X.getD i []).getD j 0 = ([10, 11, 12, 13, 14] : List ℚ).getD (i + j) 0)
          ∧ (∀ j, j < 1 →
              (y.getD i []).getD j 0 = ([10, 11, 12, 13, 14] : List ℚ).getD (i + 2 + j) 0))) :=
  ⟨by decide, claim1_create_dataset_windows 0 [10, 11, 12, 13, 14] 2 1 (by decide)⟩

/-- C2: for every ordered window sequence and every valid pair
(`n_test`, `n_val`), the splitter succeeds and partitions by index from the
end: the concatenation train ++ validation ++ test recovers the original
sequence (so the partitions are pairwise disjoint by index and chronologically
ordered train before validation before test), the test partition is exactly
the last `n_test` windows, validation the `n_val` windows immediately before
them, train all remaining earlier windows, and the three sizes sum to the
total window count. -/
theorem claim2_split_partitions {α : Type} (ws : List α)
    (forecast n_test n_val : ℕ) (h : n_test + n_val ≤ ws.length) :
    ∃ tr va te,
      split_train_test_forecast_windows ws forecast n_test n_val = some (tr, va, te)
      ∧ tr ++ va ++ te = ws
      ∧ tr.length = ws.length - n_test - n_val
      ∧ va.length = n_val
      ∧ te.length = n_test
      ∧ tr.length + va.length + te.length = ws.length := by
  refine ⟨ws.take (ws.length - n_test - n_val),
          (ws.drop (ws.length - n_test - n_val)).take n_val,
          ws.drop (ws.length - n_test), ?_, ?_, ?_, ?_, ?_, ?_⟩
  · rw [split_train_test_forecast_windows, if_neg (by omega)]
  · have hdd : (ws.drop (ws.length - n_test - n_val)).drop n_val
        = ws.drop (ws.length - n_test) := by
      rw [List.drop_drop]
      congr 1
      omega
    rw [List.append_assoc, ← hdd, List.take_append_drop, List.take_append_drop]
  · simp
    omega
  · simp
    omega
  · simp
    omega
  · simp
    omega

/-- Witness for C2 at the concrete window sequence `[0, 1, 2, 3, 4]` with
`n_test = 2` and `n_val = 1`. -/
theorem claim2_witness :
    2 + 1 ≤ ([0, 1, 2, 3, 4] : List ℕ).length ∧
    (∃ tr va te,
      split_train_test_forecast_windows ([0, 1, 2, 3, 4] : List ℕ) 7 2 1
        = some (tr, va, te)
      ∧ tr ++ va ++ te = [0, 1, 2, 3, 4]
      ∧ tr.length = ([0, 1, 2, 3, 4] : List ℕ).length - 2 - 1
      ∧ va.length = 1
      ∧ te.length = 2
      ∧ tr.length + va.length + te.length = ([0, 1, 2, 3, 4] : List ℕ).length) :=
  ⟨by decide, claim2_split_partitions [0, 1, 2, 3, 4] 7 2 1 (by decide)⟩

/-- A take of a drop of `List.range N` is a contiguous index block. -/
lemma take_drop_range {N i L : ℕ} (h : i + L ≤ N) :
    ((List.range N).drop i).take L = List.range' i L := by
  apply List.ext_getElem
  · simp
    omega
  · intro j h1 h2
    simp [List.getElem_take, List.getElem_drop, List.getElem_range,
      List.getElem_range']

/-- A drop of `List.range N` is a contiguous index block. -/
lemma drop_range_eq {N i : ℕ} : (List.range N).drop i = List.range' i (N - i) := by
  apply List.ext_getElem
  · simp
  · intro j h1 h2
    simp [List.getElem_drop, List.getElem_range, List.getElem_range']

/-- The raw samples of the window pair at start index `i` on the identity
series form the contiguous block `[i, i + L + F)`. -/
lemma pairRaw_wpair {N L F i : ℕ} (h : i + L + F ≤ N) :
    pairRaw (wpair N L F i) = List.range' i (F + L) := by
  rw [pairRaw, wpair, xwin, ywin, take_drop_range (by omega),
    take_drop_range (by omega), List.range'_append_1]

/-- `create_dataset` on the identity series, in window-function form. -/
lemma create_dataset_range_eq {N L F : ℕ} (h : L + F ≤ N) :
    create_dataset (List.range N) L F
      = some ((List.range (N - L - F + 1)).map (xwin N L),
              (List.range (N - L - F + 1)).map (ywin N L F)) := by
  rw [create_dataset, if_neg (by simp; omega)]
  simp [xwin, ywin]

/-- The successful splitter output, in take/drop form. -/
lemma split_windows_eq {α : Type} (ws : List α) (forecast n_test n_val : ℕ)
    (h : n_test + n_val ≤ ws.length) :
    split_train_test_forecast_windows ws forecast n_test n_val
      = some (ws.take (ws.length - n_test - n_val),
              (ws.drop (ws.length - n_test - n_val)).take n_val,
              ws.drop (ws.length - n_test)) := by
  rw [split_train_test_forecast_windows, if_neg (by omega)]

/-- C3 is refuted at a concrete input: with series length 5, lookback 2,
forecast 1, one test window and no validation windows, a raw sample of the
last train window also underlies the test window, so the split does let a
window's underlying raw samples appear in more than one partition. -/
theorem claim3_counterexample : no_raw_leakage 5 2 1 1 0 = false := by decide

/-- C3 (amended): the partitions are disjoint as sets of window indices, but
the splitter leaves no gap between them, so raw-sample leakage across the
boundary does occur: whenever the train partition is nonempty, at least one
test window is requested, and `n_val + 2 ≤ L + F`, some train window and some
test window share a raw sample. -/
theorem claim3_boundary_overlap (N L F n_test n_val : ℕ)
    (hLF : L + F ≤ N) (hte : 1 ≤ n_test)
    (htr : n_test + n_val < N - L - F + 1) (hov : n_val + 2 ≤ L + F) :
    ∃ tr va te p q r,
      pipeline_partitions N L F n_test n_val = some (tr, va, te)
      ∧ p ∈ tr ∧ q ∈ te ∧ r ∈ pairRaw p ∧ r ∈ pairRaw q := by
  have hc1 : N - L - F + 1 = N - (L + F) + 1 := by omega
  set c := N - L - F + 1 with hc
  set m := c - n_test - n_val with hm
  have hm1 : 1 ≤ m := by omega
  have hzip : ((List.range c).map (xwin N L)).zip ((List.range c).map (ywin N L F))
      = (List.range c).map (wpair N L F) := by
    rw [List.zip_map']
    simp [wpair]
  have hlen : ((List.range c).map (wpair N L F)).length = c := by simp
  have hpp : pipeline_partitions N L F n_test n_val
      = some ((((List.range c).map (wpair N L F)).take (c - n_test - n_val)),
              ((((List.range c).map (wpair N L F)).drop (c - n_test - n_val)).take n_val),
              (((List.range c).map (wpair N L F)).drop (c - n_test))) := by
    rw [pipeline_partitions, create_dataset_range_eq hLF, Option.some_bind]
    rw [← hc, hzip, split_windows_eq _ _ _ _ (by rw [hlen]; omega), hlen]
  have htr_eq : ((List.range c).map (wpair N L F)).take (c - n_test - n_val)
      = (List.range m).map (wpair N L F) := by
    rw [← List.map_take, List.take_range]
    have hmin : min (c - n_test - n_val) c = m := by omega
    rw [hmin]
  have hte_eq : ((List.range c).map (wpair N L F)).drop (c - n_test)
      = (List.range' (c - n_test) n_test).map (wpair N L F) := by
    rw [← List.map_drop, drop_range_eq]
    have hsub : c - (c - n_test) = n_test := by omega
    rw [hsub]
  refine ⟨_, _, _, wpair N L F (m - 1), wpair N L F (c - n_test),
    m + n_val, hpp, ?_, ?_, ?_, ?_⟩
  · rw [htr_eq]
    exact List.mem_map_of_mem _ (List.mem_range.mpr (by omega))
  · rw [hte_eq]
    exact List.mem_map_of_mem _ (List.mem_range'_1.mpr ⟨le_refl _, by omega⟩)
  · rw [pairRaw_wpair (by omega)]
    exact List.mem_range'_1.mpr ⟨by omega, by omega⟩
  · rw [pairRaw_wpair (by omega)]
    exact List.mem_range'_1.mpr ⟨by omega, by omega⟩

/-- Witness for the amended C3 at the concrete input `N = 5`, `L = 2`, `F = 1`,
one test window, no validation windows. -/
theorem claim3_witness :
    (2 + 1 ≤ 5 ∧ 1 ≤ 1 ∧ 1 + 0 < 5 - 2 - 1 + 1 ∧ 0 + 2 ≤ 2 + 1)
    ∧ (∃ tr va te p q r,
        pipeline_partitions 5 2 1 1 0 = some (tr, va, te)
        ∧ p ∈ tr ∧ q ∈ te ∧ r ∈ pairRaw p ∧ r ∈ pairRaw q) :=
  ⟨⟨by decide, by decide, by decide, by decide⟩,
   claim3_boundary_overlap 5 2 1 1 0 (by decide) (by decide) (by decide) (by decide)⟩

/-- The transform with an empty scaler leaves a sample unchanged. -/
lemma transformSample_nil (s : List ℚ) : transformSample [] s = s := by
  induction s with
  | nil => rfl
  | cons v vs ih =>
    show v :: transformSample [] vs = v :: vs
    rw [ih]

/-- The inverse transform with an empty scaler leaves a sample unchanged. -/
lemma inverseSample_nil (s : List ℚ) : inverseSample [] s = s := by
  induction s with
  | nil => rfl
  | cons v vs ih =>
    show v :: inverseSample [] vs = v :: vs
    rw [ih]

/-- Round trip on one sample: the inverse transform undoes the transform when
no fitted channel scale is zero. -/
lemma inverseSample_transformSample (sc : List (ℚ × ℚ)) (s : List ℚ)
    (h : ∀ p ∈ sc, p.2 ≠ 0) :
    inverseSample sc (transformSample sc s) = s := by
  induction s generalizing sc with
  | nil => cases sc <;> rfl
  | cons v vs ih =>
    cases sc with
    | nil =>
      show v :: inverseSample [] (transformSample [] vs) = v :: vs
      rw [ih [] (by simp)]
    | cons p ps =>
      have hp : p.2 ≠ 0 := h p (List.mem_cons_self p ps)
      have hrest : ∀ q ∈ ps, q.2 ≠ 0 := fun q hq => h q (List.mem_cons_of_mem p hq)
      show ((v - p.1) / p.2 * p.2 + p.1) :: inverseSample ps (transformSample ps vs)
          = v :: vs
      have hhead : (v - p.1) / p.2 * p.2 + p.1 = v := by
        rw [div_mul_cancel₀ _ hp]
        ring
      rw [hhead, ih ps hrest]

/-- Round trip on a whole tensor. -/
lemma inverse_transform_transform (sc : List (ℚ × ℚ)) (data : List (List ℚ))
    (h : ∀ p ∈ sc, p.2 ≠ 0) :
    inverse_transform sc (transform sc data) = data := by
  rw [inverse_transform, transform, List.map_map]
  have hcomp : inverseSample sc ∘ transformSample sc = id := by
    funext s
    exact inverseSample_transformSample sc s h
  rw [hcomp, List.map_id]

/-- A nondegenerate scaler has no zero channel scale. -/
lemma scaler_nondegenerate_spec (sc : List (ℚ × ℚ))
    (h : scaler_nondegenerate sc = true) : ∀ p ∈ sc, p.2 ≠ 0 := by
  intro p hp
  have hall := List.all_eq_true.mp h p hp
  simpa using hall

/-- Anatomy of a successful `normalise_dataset` call: the returned scalers are
the ones fitted on the train tensors, both are nondegenerate, and every field
of the returned bundle is the corresponding partition transformed with them. -/
lemma normalise_dataset_some {X_train y_train X_test y_test : List (List ℚ)}
    {val : Option (List (List ℚ) × List (List ℚ))}
    {nd : NormalisedData} {sX sY : List (ℚ × ℚ)}
    (h : normalise_dataset X_train y_train X_test y_test val = some (nd, sX, sY)) :
    sX = fit_scaler X_train ∧ sY = fit_scaler y_train
    ∧ scaler_nondegenerate sX = true ∧ scaler_nondegenerate sY = true
    ∧ nd = { X_train_sc := transform sX X_train
             y_train_sc := transform sY y_train
             X_test_sc := transform sX X_test
             y_test_sc := transform sY y_test
             X_val_sc := transform sX ((val.map Prod.fst).getD [])
             y_val_sc := transform sY ((val.map Prod.snd).getD []) } := by
  simp only [normalise_dataset] at h
  split at h
  case isTrue hc =>
    rw [Bool.and_eq_true] at hc
    obtain ⟨hcX, hcY⟩ := hc
    simp only [Option.some.injEq, Prod.mk.injEq] at h
    obtain ⟨hnd, hsX, hsY⟩ := h
    subst hsX hsY
    exact ⟨rfl, rfl, hcX, hcY, hnd.symm⟩
  case isFalse => simp at h

/-- C4: whenever `normalise_dataset` succeeds, applying the fitted transform
and then its inverse returns the original values of every supplied partition
exactly (the model works in exact rational arithmetic, so the floating-point
tolerance of the claim is exact equality here): this holds for the y tensor of
train, test and validation, and likewise for the X tensors. -/
theorem claim4_roundtrip (X_train y_train X_test y_test : List (List ℚ))
    (val : Option (List (List ℚ) × List (List ℚ)))
    (nd : NormalisedData) (sX sY : List (ℚ × ℚ))
    (h : normalise_dataset X_train y_train X_test y_test val = some (nd, sX, sY)) :
    inverse_transform sY nd.y_train_sc = y_train
    ∧ inverse_transform sY nd.y_test_sc = y_test
    ∧ inverse_transform sY nd.y_val_sc = (val.map Prod.snd).getD []
    ∧ inverse_transform sX nd.X_train_sc = X_train
    ∧ inverse_transform sX nd.X_test_sc = X_test
    ∧ inverse_transform sX nd.X_val_sc = (val.map Prod.fst).getD [] := by
  obtain ⟨hsX, hsY, hndX, hndY, hnd⟩ := normalise_dataset_some h
  have hX := scaler_nondegenerate_spec _ hndX
  have hY := scaler_nondegenerate_spec _ hndY
  subst hnd
  exact ⟨inverse_transform_transform _ _ hY, inverse_transform_transform _ _ hY,
         inverse_transform_transform _ _ hY, inverse_transform_transform _ _ hX,
         inverse_transform_transform _ _ hX, inverse_transform_transform _ _ hX⟩

/-- Witness for C4 at a concrete call: train `[[-1], [1]]` for X and y, test
`[[2]]` and `[[3]]`, no validation partition; the fitted scalers are mean `0`,
scale `1`, and inverting the normalised tensors recovers the originals
exactly. -/
theorem claim4_witness :
    normalise_dataset [[-1], [1]] [[-1], [1]] [[2]] [[3]] none
      = some ({ X_train_sc := [[-1], [1]], y_train_sc := [[-1], [1]],
                X_test_sc := [[2]], y_test_sc := [[3]],
                X_val_sc := [], y_val_sc := [] },
              [(0, 1)], [(0, 1)])
    ∧ (inverse_transform [(0, 1)] [[-1], [1]] = [[-1], [1]]
       ∧ inverse_transform [(0, 1)] [[3]] = [[3]]
       ∧ inverse_transform [(0, 1)] [] = []
       ∧ inverse_transform [(0, 1)] [[-1], [1]] = [[-1], [1]]
       ∧ inverse_transform [(0, 1)] [[2]] = [[2]]
       ∧ inverse_transform [(0, 1)] [] = []) := by
  have hchan : channelValues [[-1], [1]] 0 = [(-1 : ℚ), 1] := by
    norm_num [channelValues]
  have hmean : meanQ [(-1 : ℚ), 1] = 0 := by
    norm_num [meanQ]
  have hvar : varQ [(-1 : ℚ), 1] = 1 := by
    norm_num [varQ, hmean]
  have hsq : sqrtQ 1 = 1 := by
    have h0 : (1 : ℚ).num.toNat = 1 := rfl
    have h1 : (1 : ℚ).den = 1 := rfl
    have h2 : natSqrt 1 = 1 := rfl
    rw [sqrtQ, h0, h1, h2]
    norm_num
  have hrange : List.range 1 = [0] := rfl
  have hfit : fit_scaler [[-1], [1]] = [((0 : ℚ), (1 : ℚ))] := by
    rw [fit_scaler]
    norm_num [hrange, hchan, hmean, hvar, hsq]
  have hndg : scaler_nondegenerate [((0 : ℚ), (1 : ℚ))] = true := by
    norm_num [scaler_nondegenerate]
  have htr1 : transform [((0 : ℚ), (1 : ℚ))] [[-1], [1]] = [[-1], [1]] := by
    norm_num [transform, transformSample]
  have hte2 : transform [((0 : ℚ), (1 : ℚ))] [[2]] = [[2]] := by
    norm_num [transform, transformSample]
  have hte3 : transform [((0 : ℚ), (1 : ℚ))] [[3]] = [[3]] := by
    norm_num [transform, transformSample]
  have htrnil : transform [((0 : ℚ), (1 : ℚ))] [] = [] := rfl
  have hEq : normalise_dataset [[-1], [1]] [[-1], [1]] [[2]] [[3]] none
      = some ({ X_train_sc := [[-1], [1]], y_train_sc := [[-1], [1]],
                X_test_sc := [[2]], y_test_sc := [[3]],
                X_val_sc := [], y_val_sc := [] },
              [(0, 1)], [(0, 1)]) := by
    simp [normalise_dataset, hfit, hndg, htr1, hte2, hte3, htrnil]
  exact ⟨hEq, claim4_roundtrip [[-1], [1]] [[-1], [1]] [[2]] [[3]] none _ _ _ hEq⟩

/-- C5: the fitted scaler parameters and the normalised training tensors are
functions of the training partition alone — two calls with equal train inputs
agree on them however the test and validation inputs are perturbed — and on
every successful call the returned scalers are exactly the ones fitted on
train, applied unchanged to the test and validation partitions as well. -/
theorem claim5_fit_only_on_train (X_train y_train : List (List ℚ))
    (X_test1 y_test1 X_test2 y_test2 : List (List ℚ))
    (val1 val2 : Option (List (List ℚ) × List (List ℚ))) :
    (normalise_dataset X_train y_train X_test1 y_test1 val1).map train_view
      = (normalise_dataset X_train y_train X_test2 y_test2 val2).map train_view
    ∧ (∀ nd sX sY,
        normalise_dataset X_train y_train X_test1 y_test1 val1 = some (nd, sX, sY) →
          sX = fit_scaler X_train ∧ sY = fit_scaler y_train
          ∧ nd.X_test_sc = transform sX X_test1
          ∧ nd.y_test_sc = transform sY y_test1
          ∧ nd.X_val_sc = transform sX ((val1.map Prod.fst).getD [])
          ∧ nd.y_val_sc = transform sY ((val1.map Prod.snd).getD [])) := by
  constructor
  · by_cases hc : (scaler_nondegenerate (fit_scaler X_train)
        && scaler_nondegenerate (fit_scaler y_train)) = true
    · simp [normalise_dataset, hc, train_view]
    · simp [normalise_dataset, hc]
  · intro nd sX sY h
    obtain ⟨hsX, hsY, _, _, hnd⟩ := normalise_dataset_some h
    subst hnd
    exact ⟨hsX, hsY, rfl, rfl, rfl, rfl⟩

/-- Witness for C5 at a concrete pair of calls whose train inputs agree and
whose test inputs differ. -/
theorem claim5_witness :
    (normalise_dataset [[0], [1]] [[0], [1]] [[2]] [[3]] none).map train_view
      = (normalise_dataset [[0], [1]] [[0], [1]] [[7]] [[9]] none).map train_view
    ∧ (∀ nd sX sY,
        normalise_dataset [[0], [1]] [[0], [1]] [[2]] [[3]] none = some (nd, sX, sY) →
          sX = fit_scaler [[0], [1]] ∧ sY = fit_scaler [[0], [1]]
          ∧ nd.X_test_sc = transform sX [[2]]
          ∧ nd.y_test_sc = transform sY [[3]]
          ∧ nd.X_val_sc = transform sX ((Option.map Prod.fst
              (none : Option (List (List ℚ) × List (List ℚ)))).getD [])
          ∧ nd.y_val_sc = transform sY ((Option.map Prod.snd
              (none : Option (List (List ℚ) × List (List ℚ)))).getD [])) :=
  claim5_fit_only_on_train [[0], [1]] [[0], [1]] [[2]] [[3]] [[7]] [[9]] none none

/-- The variance of a constant list is zero. -/
lemma varQ_const (xs : List ℚ) (v : ℚ) (h : ∀ x ∈ xs, x = v) : varQ xs = 0 := by
  by_cases hx : xs = []
  · subst hx
    simp [varQ]
  · have hlen0 : xs.length ≠ 0 := fun hh => hx (List.length_eq_zero.mp hh)
    have hlen : (xs.length : ℚ) ≠ 0 := Nat.cast_ne_zero.mpr hlen0
    have hmean : meanQ xs = v := by
      rw [meanQ, List.sum_eq_card_nsmul xs v h, nsmul_eq_mul,
        mul_div_cancel_left₀ _ hlen]
    have hzero : (xs.map (fun x => (x - meanQ xs) ^ 2)).sum = 0 := by
      apply List.sum_eq_zero
      intro y hy
      obtain ⟨x, hx', rfl⟩ := List.mem_map.mp hy
      rw [hmean, h x hx']
      ring
    rw [varQ, hzero, zero_div]

/-- The rational square-root stand-in sends zero to zero. -/
lemma sqrtQ_zero : sqrtQ 0 = 0 := by
  have h0 : (0 : ℚ).num.toNat = 0 := rfl
  have h1 : (0 : ℚ).den = 1 := rfl
  have h2 : natSqrt 0 = 0 := rfl
  have h3 : natSqrt 1 = 1 := rfl
  rw [sqrtQ, h0, h1, h2, h3]
  norm_num

/-- A constant channel in a tensor makes the fitted scaler degenerate. -/
lemma channel_const_degenerate (data : List (List ℚ)) (c : ℕ) (v : ℚ)
    (hc : c < (data.headD []).length) (hconst : ∀ s ∈ data, s.getD c 0 = v) :
    scaler_nondegenerate (fit_scaler data) = false := by
  have hvar : varQ (channelValues data c) = 0 := by
    apply varQ_const _ v
    intro x hx
    rw [channelValues] at hx
    obtain ⟨s, hs, rfl⟩ := List.mem_map.mp hx
    exact hconst s hs
  rw [scaler_nondegenerate, List.all_eq_false]
  refine ⟨(meanQ (channelValues data c), sqrtQ (varQ (channelValues data c))),
    ?_, ?_⟩
  · rw [fit_scaler]
    exact List.mem_map_of_mem _ (List.mem_range.mpr hc)
  · simp [hvar, sqrtQ_zero]

/-- C8: a training partition containing a constant-valued channel — in X or in
y — has zero standard deviation there, and `normalise_dataset` fails cleanly
(returns no tensors at all) instead of dividing by zero. -/
theorem claim8_degenerate_channel (X_train y_train X_test y_test : List (List ℚ))
    (val : Option (List (List ℚ) × List (List ℚ))) (c : ℕ) (v : ℚ)
    (h : (c < (X_train.headD []).length ∧ ∀ s ∈ X_train, s.getD c 0 = v)
       ∨ (c < (y_train.headD []).length ∧ ∀ s ∈ y_train, s.getD c 0 = v)) :
    normalise_dataset X_train y_train X_test y_test val = none := by
  rcases h with ⟨hc, hconst⟩ | ⟨hc, hconst⟩
  · have hdeg := channel_const_degenerate X_train c v hc hconst
    simp [normalise_dataset, hdeg]
  · have hdeg := channel_const_degenerate y_train c v hc hconst
    simp [normalise_dataset, hdeg]

/-- Witness for C8 at a concrete call whose X train tensor has the constant
channel `[1, 1]`. -/
theorem claim8_witness :
    ((0 < (([[1], [1]] : List (List ℚ)).headD []).length
        ∧ ∀ s ∈ ([[1], [1]] : List (List ℚ)), s.getD 0 0 = 1)
      ∨ (0 < (([[2]] : List (List ℚ)).headD []).length
        ∧ ∀ s ∈ ([[2]] : List (List ℚ)), s.getD 0 0 = 1))
    ∧ normalise_dataset [[1], [1]] [[2]] [[3]] [[4]] none = none :=
  ⟨Or.inl ⟨by decide, by decide⟩,
   claim8_degenerate_channel [[1], [1]] [[2]] [[3]] [[4]] none 0 1
     (Or.inl ⟨by decide, by decide⟩)⟩

/-- C6: the causal smoother is causal: the retained output sample at position
`k` corresponds to raw index `k·d + w - 1` and equals the mean of the `w` most
recent raw samples `[k·d, k·d + w)`; consequently, for any series `T` of the
same length agreeing with `S` on all raw indices up to `k·d + w - 1` — however
the later samples are changed — the smoothed value at `k` is unchanged. -/
theorem claim6_causal_smoother (S T : List ℚ) (w d k : ℕ)
    (hw : w ≤ S.length) (hd : 0 < d) (hlen : T.length = S.length)
    (hk : k < (S.length - w) / d + 1)
    (hagree : S.take (k * d + w) = T.take (k * d + w)) :
    (moving_average_causal_filter S w d).getD k 0
      = meanQ ((S.drop (k * d)).take w)
    ∧ (moving_average_causal_filter S w d).getD k 0
      = (moving_average_causal_filter T w d).getD k 0 := by
  have hS : (moving_average_causal_filter S w d).getD k 0
      = meanQ ((S.drop (k * d)).take w) := by
    rw [moving_average_causal_filter, if_pos ⟨hw, hd⟩]
    rw [List.getD_eq_getElem _ _ (by simpa using hk)]
    rw [List.getElem_map, List.getElem_range', Nat.zero_add, Nat.mul_comm d k]
  have hT : (moving_average_causal_filter T w d).getD k 0
      = meanQ ((T.drop (k * d)).take w) := by
    rw [moving_average_causal_filter, if_pos ⟨by omega, hd⟩]
    have hkT : k < ((List.range' 0 ((T.length - w) / d + 1) d).map
        (fun j => meanQ ((T.drop j).take w))).length := by
      simp only [List.length_map, List.length_range', hlen]
      exact hk
    rw [List.getD_eq_getElem _ _ hkT]
    rw [List.getElem_map, List.getElem_range', Nat.zero_add, Nat.mul_comm d k]
  refine ⟨hS, ?_⟩
  rw [hS, hT, List.take_drop (k * d) w S, List.take_drop (k * d) w T, hagree]

/-- Witness for C6: `[1, 2, 3, 4]` and `[1, 2, 3, 9]` differ only after raw
index 2, and the smoothed value at output position 1 (window `[2, 3]`) agrees. -/
theorem claim6_witness :
    (2 ≤ ([1, 2, 3, 4] : List ℚ).length ∧ 0 < 1
      ∧ ([1, 2, 3, 9] : List ℚ).length = ([1, 2, 3, 4] : List ℚ).length
      ∧ 1 < (([1, 2, 3, 4] : List ℚ).length - 2) / 1 + 1
      ∧ ([1, 2, 3, 4] : List ℚ).take (1 * 1 + 2) = ([1, 2, 3, 9] : List ℚ).take (1 * 1 + 2))
    ∧ ((moving_average_causal_filter [1, 2, 3, 4] 2 1).getD 1 0
        = meanQ ((([1, 2, 3, 4] : List ℚ).drop (1 * 1)).take 2)
      ∧ (moving_average_causal_filter [1, 2, 3, 4] 2 1).getD 1 0
        = (moving_average_causal_filter [1, 2, 3, 9] 2 1).getD 1 0) :=
  ⟨⟨by decide, by decide, by decide, by decide, by decide⟩,
   claim6_causal_smoother [1, 2, 3, 4] [1, 2, 3, 9] 2 1 1
     (by decide) (by decide) (by decide) (by decide) (by decide)⟩

/-- C7: `create_dataset` fails exactly when the series is shorter than
`lookback + forecast` and succeeds otherwise;
`split_train_test_forecast_windows` fails exactly when `n_test + n_val`
exceeds the total window count and succeeds otherwise; and in both scripts the
windowing and splitting stages run strictly before the model-construction
stage, so these failures occur before any model is constructed. -/
theorem claim7_fail_fast (S : List ℚ) (L F : ℕ)
    (ws : List (List ℚ × List ℚ)) (forecast n_test n_val : ℕ) :
    ((create_dataset S L F).isNone ↔ S.length < L + F)
    ∧ ((create_dataset S L F).isSome ↔ L + F ≤ S.length)
    ∧ ((split_train_test_forecast_windows ws forecast n_test n_val).isNone
        ↔ ws.length < n_test + n_val)
    ∧ ((split_train_test_forecast_windows ws forecast n_test n_val).isSome
        ↔ n_test + n_val ≤ ws.length)
    ∧ (p4581_pipeline.indexOf .window < p4581_pipeline.indexOf .modelConstruct
        ∧ p4581_pipeline.indexOf .split < p4581_pipeline.indexOf .modelConstruct)
    ∧ (cascadia_pipeline.indexOf .window < cascadia_pipeline.indexOf .modelConstruct
        ∧ cascadia_pipeline.indexOf .split
            < cascadia_pipeline.indexOf .modelConstruct) := by
  refine ⟨?_, ?_, ?_, ?_, by decide, by decide⟩
  · rw [create_dataset]
    split <;> simp_all
  · rw [create_dataset]
    split <;> simp_all
  · rw [split_train_test_forecast_windows]
    split <;> simp_all
  · rw [split_train_test_forecast_windows]
    split <;> simp_all

/-- C9 is refuted on `train_sptmp_cascadia.py`: that script's pipeline never
consults the statistical gate at all, so in particular the gate is not
consulted after smoothing and before windowing in every pipeline run. -/
theorem claim9_counterexample :
    ¬ gate_between_smooth_and_window cascadia_pipeline := by
  unfold gate_between_smooth_and_window
  decide

/-- C9 (amended): in `train_p4581.py` the statistical gate is consulted after
smoothing and before windowing, its position precedes model construction, a
false verdict aborts the run cleanly (a printed message and `exit()`, not a
crash) and a true verdict lets the run proceed; `train_sptmp_cascadia.py`,
however, never consults the gate. -/
theorem claim9_gate_only_in_p4581 :
    gate_between_smooth_and_window p4581_pipeline
    ∧ p4581_pipeline.indexOf .statGate < p4581_pipeline.indexOf .modelConstruct
    ∧ p4581_gate_outcome false = .abortedCleanly
    ∧ p4581_gate_outcome true = .proceeds
    ∧ Stage.statGate ∉ cascadia_pipeline := by
  refine ⟨?_, by decide, by decide, by decide, by decide⟩
  unfold gate_between_smooth_and_window
  decide

/-- C10: for every configuration string outside a script's own recognized set
— outside {"LSTM", "TCN"} for `train_p4581.py`, outside {"Conv2DLSTM"} for
`train_sptmp_cascadia.py` — that script's model selection binds no model
object and its `train_model(model, ...)` call fails with an unbound-name
error, never with a descriptive validation error. -/
theorem claim10_unknown_model_string (s : String) :
    (s ≠ "LSTM" → s ≠ "TCN" →
      p4581_select_model s = none
      ∧ p4581_train_call s = .unboundNameError "model"
      ∧ (∀ msg, p4581_train_call s ≠ .descriptiveValidationError msg))
    ∧ (s ≠ "Conv2DLSTM" →
      cascadia_select_model s = none
      ∧ cascadia_train_call s = .unboundNameError "model"
      ∧ (∀ msg, cascadia_train_call s ≠ .descriptiveValidationError msg)) := by
  constructor
  · intro h1 h2
    have hp : p4581_select_model s = none := by
      simp [p4581_select_model, h1, h2]
    refine ⟨hp, ?_, ?_⟩ <;> simp [p4581_train_call, hp]
  · intro h3
    have hc : cascadia_select_model s = none := by
      simp [cascadia_select_model, h3]
    refine ⟨hc, ?_, ?_⟩ <;> simp [cascadia_train_call, hc]

/-- Witness for C10 at the concrete configuration strings `"Conv2DLSTM"` for
`train_p4581.py` (recognized only by the other script) and `"LSTM"` for
`train_sptmp_cascadia.py` (likewise). -/
theorem claim10_witness :
    ("Conv2DLSTM" ≠ "LSTM" ∧ "Conv2DLSTM" ≠ "TCN"
      ∧ p4581_select_model "Conv2DLSTM" = none
      ∧ p4581_train_call "Conv2DLSTM" = .unboundNameError "model"
      ∧ (∀ msg, p4581_train_call "Conv2DLSTM" ≠ .descriptiveValidationError msg))
    ∧ ("LSTM" ≠ "Conv2DLSTM"
      ∧ cascadia_select_model "LSTM" = none
      ∧ cascadia_train_call "LSTM" = .unboundNameError "model"
      ∧ (∀ msg, cascadia_train_call "LSTM" ≠ .descriptiveValidationError msg)) :=
  ⟨⟨by decide, by decide,
    (claim10_unknown_model_string "Conv2DLSTM").1 (by decide) (by decide)⟩,
   by decide,
   (claim10_unknown_model_string "LSTM").2 (by decide)⟩

end EqPred
